import Mathlib

/-
Verification of the AICodeBot core (aicodebot/coder.py and
aicodebot/commands/sidekick.py) against its natural-language specification.

The Python source is embedded shallowly:

* machine integers are `Nat` (Python ints are unbounded; the only arithmetic
  is `int(token_size * 1.05)`, modelled as exact rational floor, which agrees
  with the double-precision computation for every realistic token count);
* external processes (git) and the file system are abstract `Backend`
  functions, and every invocation of them is recorded in an explicit trace of
  `Call` values so that theorems can speak about which commands were issued;
* Python string primitives (`str.split`, `str.splitlines`, `str.strip`,
  `"\n".join`) are re-implemented structurally over `List Char` with the same
  semantics, so that everything evaluates by `rfl`/`decide`;
* fallible code (Python list indexing that can raise `IndexError`) returns
  `Option`.
-/

/-! ## Python string primitives -/

/-- Split a character list at every occurrence of `c`, keeping empty pieces,
exactly like Python `str.split(c)`. -/
def splitListOn (c : Char) : List Char → List (List Char)
  | [] => [[]]
  | x :: xs =>
    let r := splitListOn c xs
    if x = c then [] :: r
    else
      match r with
      | [] => [[x]]
      | y :: ys => (x :: y) :: ys

/-- Python `s.split(c)` for a one-character separator `c`. -/
def pySplit (c : Char) (s : String) : List String :=
  (splitListOn c s.data).map (fun l => String.mk l)

/-- Python `s.splitlines()` (restricted to `\n` line endings): split at every
newline and drop the trailing empty piece, so `""` gives `[]` and `"a\n"`
gives `["a"]`. -/
def splitlines (s : String) : List String :=
  let parts := (splitListOn '\n' s.data).map (fun l => String.mk l)
  if parts.getLast? = some "" then parts.dropLast else parts

/-- Characters stripped by Python `str.strip()`. -/
def isPySpace (c : Char) : Bool :=
  c = ' ' || c = '\t' || c = '\n' || c = '\r' || c = '\x0B' || c = '\x0C'

/-- Python `s.strip()`. -/
def pyStrip (s : String) : String :=
  String.mk (((s.data.dropWhile isPySpace).reverse.dropWhile isPySpace).reverse)

/-- Python `"\n".join(l)`. -/
def joinNL : List String → String
  | [] => ""
  | [x] => x
  | x :: y :: xs => x ++ "\n" ++ joinNL (y :: xs)

/-- Python `"  " * indent`. -/
def indentStr : Nat → String
  | 0 => ""
  | n + 1 => "  " ++ indentStr n

namespace Coder

/-! ## Model tier selection (`Coder.get_llm_model_name`)

The provider mode is the boolean `openrouter`: `true` when the configuration
holds an `openrouter_api_key` (gateway mode), `false` for the direct OpenAI
mode.  In direct mode the availability set `apiEngines` is the engine list
returned by `Coder.get_openai_supported_engines()`; in gateway mode the code
uses the table's own keys as the availability set. -/

/-- Hard-coded tier table of `get_llm_model_name`, in Python dict insertion
order (which is the iteration order of `model_options.items()`). -/
def model_options (openrouter : Bool) : List (String × Nat) :=
  if openrouter then
    [("openai/gpt-4", 8192), ("openai/gpt-4-32k", 32768)]
  else
    [("gpt-4", 8192), ("gpt-4-32k", 32768),
     ("gpt-3.5-turbo", 4096), ("gpt-3.5-turbo-16k", 16384)]

/-- Availability set used by `get_llm_model_name`: the table keys in gateway
mode, the engines reported by the OpenAI API in direct mode. -/
def supported_engines (openrouter : Bool) (apiEngines : List String) : List String :=
  if openrouter then (model_options true).map Prod.fst else apiEngines

/-- Buffered token size `int(token_size * 1.05)` of `get_llm_model_name`,
as the exact floor of `token_size * 105 / 100`. -/
def compensate (token_size : Nat) : Nat :=
  token_size * 105 / 100

/-- Info message logged when a model is selected. -/
def usingModelMessage (model : String) (ts : Nat) : String :=
  "Using " ++ model ++ " for token size " ++ toString ts

/-- Critical message logged when no model fits; it carries the compensated
required token size. -/
def tooLargeMessage (ts : Nat) : String :=
  "The context is too large (" ++ toString ts ++
    ") for any of the models supported by your API key. 😞"

/-- Second critical message logged in direct mode when no model fits. -/
def openRouterHint : String :=
  "If you provide an Open Router API key, you can access larger models, up to 32k tokens"

/-- Embedding of `Coder.get_llm_model_name`, returning both the selected
model (`none` models the Python `return None`) and the log messages emitted
on the way. -/
def get_llm_model_name_logged (openrouter : Bool) (apiEngines : List String)
    (token_size : Nat) : Option String × List String :=
  match (model_options openrouter).find? (fun p =>
      (supported_engines openrouter apiEngines).contains p.1 &&
        decide (compensate token_size ≤ p.2)) with
  | some p => (some p.1, [usingModelMessage p.1 (compensate token_size)])
  | none =>
    (none, tooLargeMessage (compensate token_size) ::
      if openrouter then [] else [openRouterHint])

/-- The return value of `Coder.get_llm_model_name`. -/
def get_llm_model_name (openrouter : Bool) (apiEngines : List String)
    (token_size : Nat) : Option String :=
  (get_llm_model_name_logged openrouter apiEngines token_size).1

/-- A tier fits a request when its name is in the availability set and its
capacity is at least the compensated token size. -/
def tier_fits (openrouter : Bool) (apiEngines : List String) (token_size : Nat)
    (p : String × Nat) : Prop :=
  p.1 ∈ supported_engines openrouter apiEngines ∧ compensate token_size ≤ p.2

/-- No tier of the provider mode's table that is in the availability set can
hold the compensated token size. -/
def no_tier_fits (openrouter : Bool) (apiEngines : List String) (token_size : Nat) : Prop :=
  ∀ p ∈ model_options openrouter,
    p.1 ∈ supported_engines openrouter apiEngines → p.2 < compensate token_size

instance (openrouter : Bool) (apiEngines : List String) (token_size : Nat)
    (p : String × Nat) : Decidable (tier_fits openrouter apiEngines token_size p) := by
  unfold tier_fits; infer_instance

instance (openrouter : Bool) (apiEngines : List String) (token_size : Nat) :
    Decidable (no_tier_fits openrouter apiEngines token_size) := by
  unfold no_tier_fits; infer_instance

/-! ## Git context builder (`Coder.git_diff_context`)

`exec_and_get_output` and `Path.read_text` are the only effects; they are
modelled by an abstract `Backend`, and the embedding additionally returns the
trace of backend invocations as a list of `Call` values, in order. -/

/-- External effects available to `git_diff_context`: running a command line
and reading a file's text. -/
structure Backend where
  exec : List String → String
  readFile : String → String

/-- One recorded backend invocation. -/
inductive Call where
  | exec (cmd : List String)
  | read (file : String)
deriving DecidableEq

/-- Python `base_git_diff = ["git", "diff", "-U10"]`: diff requests ask for
10 lines of context around every hunk. -/
def base_git_diff : List String := ["git", "diff", "-U10"]

/-- Command run by `Coder.git_staged_files`. -/
def stagedCmd : List String := ["git", "diff", "--cached", "--name-only"]

/-- Embedding of `Coder.git_staged_files`. -/
def git_staged_files (b : Backend) : List String :=
  splitlines (b.exec stagedCmd)

/-- Diff base chosen by `git_diff_context` when no commit is given: the index
(`--cached`) when at least one staged file exists, otherwise the working tree
against `HEAD`. -/
def diff_base (b : Backend) : String :=
  if git_staged_files b ≠ [] then "--cached" else "HEAD"

/-- Body of the `for status in file_status` loop of `git_diff_context`: turn
one `--name-status` line into the list of rendered pieces appended to `diffs`
together with the backend calls made for it.  `none` models the `IndexError`
Python raises on a malformed line. -/
def processStatusLine (b : Backend) (diff_type : String) (status : String) :
    Option (List String × List Call) :=
  let status_parts := pySplit '\t' status
  match (status_parts.headD "").data.head? with
  | none => none
  | some status_code =>
    if status_code = 'A' then
      match status_parts.get? 1 with
      | none => none
      | some file_name =>
        some (["## New file added: " ++ file_name, b.readFile file_name],
          [Call.read file_name])
    else if status_code = 'R' then
      match status_parts.get? 1, status_parts.get? 2 with
      | some old_file_name, some new_file_name =>
        some (["## File renamed: " ++ old_file_name ++ " -> " ++ new_file_name,
            b.exec (base_git_diff ++ [diff_type, "--", new_file_name])],
          [Call.exec (base_git_diff ++ [diff_type, "--", new_file_name])])
      | _, _ => none
    else if status_code = 'D' then
      match status_parts.get? 1 with
      | none => none
      | some file_name =>
        some (["## File deleted: " ++ file_name], [])
    else
      match status_parts.get? 1 with
      | none => none
      | some file_name =>
        some (["## File changed: " ++ file_name,
            b.exec (base_git_diff ++ [diff_type, "--", file_name])],
          [Call.exec (base_git_diff ++ [diff_type, "--", file_name])])

/-- The whole `for status in file_status` loop: concatenates the rendered
pieces and the call traces of the lines in order. -/
def processAll (b : Backend) (diff_type : String) :
    List String → Option (List String × List Call)
  | [] => some ([], [])
  | l :: ls =>
    match processStatusLine b diff_type l, processAll b diff_type ls with
    | some (d, c), some (ds, cs) => some (d ++ ds, c ++ cs)
    | _, _ => none

/-- Command used to list changed paths with their status codes. -/
def nameStatusCmd (base : String) (files : List String) : List String :=
  ["git", "diff", base, "--name-status"] ++ files

/-- Embedding of `Coder.git_diff_context`; returns the produced context text
and the ordered trace of backend calls, or `none` when the Python code would
raise on a malformed status line. -/
def git_diff_context (b : Backend) (commit : Option String) (files : List String) :
    Option (String × List Call) :=
  match commit with
  | some c =>
    some (b.exec ["git", "show", "--format=%B", c],
      [Call.exec ["git", "show", "--format=%B", c]])
  | none =>
    let diff_type := diff_base b
    let file_status := splitlines (b.exec (nameStatusCmd diff_type files))
    match processAll b diff_type file_status with
    | some (diffs, tr) =>
      some (joinNL diffs,
        Call.exec stagedCmd :: Call.exec (nameStatusCmd diff_type files) :: tr)
    | none => none

/-- Backend of a concrete repository snapshot with one staged, modified file
`a.py`, used to evaluate the builder on a concrete input. -/
def sampleBackend : Backend where
  exec := fun cmd =>
    if cmd = stagedCmd then "a.py\n"
    else if cmd = nameStatusCmd "--cached" ["a.py"] then "M\ta.py\n"
    else "@@ -1,2 +1,2 @@ diff body"
  readFile := fun _ => "print(1)\n"

/-- Backend of a concrete repository snapshot with no staged files and no
changes at all. -/
def emptyBackend : Backend where
  exec := fun _ => ""
  readFile := fun _ => ""

/-! ## Directory structure renderer (`Coder.generate_directory_structure`)

The file system is a tree of `FSNode` values; the glob matcher
`fnmatch.fnmatch(name, pattern)` is an external library call, passed in as a
function parameter `m`, exactly as the git backend is. -/

/-- A snapshot of a directory tree: every node carries its `Path.name`, files
also carry their text content. -/
inductive FSNode where
  | file (name content : String)
  | dir (name : String) (children : List FSNode)

/-- Content of the `.gitignore` regular file among a directory's children, if
one exists (this is the `(base_path / ".gitignore").exists()` check followed
by opening it; a directory named `.gitignore` is not modelled, since opening
it would fail). -/
def findGitignore : List FSNode → Option String
  | [] => none
  | FSNode.file n c :: rest => if n = ".gitignore" then some c else findGitignore rest
  | FSNode.dir _ _ :: rest => findGitignore rest

/-- Patterns kept from an ignore file: Python keeps `line.strip()` for every
line whose stripped form is nonempty and whose raw form does not start with
`#` (note the hash test is on the unstripped line, as in the source). -/
def gitignoreLines (content : String) : List String :=
  (splitlines content).filterMap (fun line =>
    if pyStrip line ≠ "" ∧ line.data.head? ≠ some '#' then some (pyStrip line) else none)

/-- Patterns contributed by a node's own level: the `.gitignore` next to a
directory; a file path contributes nothing (`path / ".gitignore"` does not
exist for a file `path`). -/
def gitignoreOf : FSNode → List String
  | FSNode.file _ _ => []
  | FSNode.dir _ children =>
    match findGitignore children with
    | some content => gitignoreLines content
    | none => []

mutual

/-- Embedding of `Coder.generate_directory_structure`.  The inherited pattern
list is copied and extended with the level's own ignore file (when
`use_gitignore` is set) before the node's own name is tested, as in the
source; children are rendered with the extended list. -/
def generate_directory_structure (m : String → String → Bool) (use_gitignore : Bool)
    (node : FSNode) (inherited : List String) (indent : Nat) : String :=
  let ignore_patterns :=
    if use_gitignore then inherited ++ gitignoreOf node else inherited
  match node with
  | FSNode.dir name children =>
    if ignore_patterns.any (fun pattern => m name pattern) then ""
    else
      indentStr indent ++ "- [Directory] " ++ name ++ "\n" ++
        renderChildren m use_gitignore children ignore_patterns (indent + 1)
  | FSNode.file name _ =>
    if ignore_patterns.any (fun pattern => m name pattern) then ""
    else indentStr indent ++ "- [File] " ++ name ++ "\n"

/-- The `for item in base_path.iterdir()` loop: concatenate the renderings of
the children, all with the same inherited pattern list. -/
def renderChildren (m : String → String → Bool) (use_gitignore : Bool)
    (children : List FSNode) (inherited : List String) (indent : Nat) : String :=
  match children with
  | [] => ""
  | c :: cs =>
    generate_directory_structure m use_gitignore c inherited indent ++
      renderChildren m use_gitignore cs inherited indent

end

/-- Pattern set a directory hands to its children: the inherited set plus its
own level's ignore-file patterns when `use_gitignore` is set. -/
def dirPatterns (use_gitignore : Bool) (inherited : List String) (node : FSNode) :
    List String :=
  if use_gitignore then inherited ++ gitignoreOf node else inherited

/-- All suffixes of a character list, longest first. -/
def tails : List Char → List (List Char)
  | [] => [[]]
  | x :: xs => (x :: xs) :: tails xs

/-- Simple glob matcher covering the `*` and `?` forms of `fnmatch.fnmatch`,
used to instantiate the matcher parameter on concrete inputs. -/
def globMatch : List Char → List Char → Bool
  | [], s => s.isEmpty
  | c :: ps, s =>
    if c = '*' then (tails s).any (fun t => globMatch ps t)
    else
      match s with
      | [] => false
      | x :: xs => (c = '?' || c = x) && globMatch ps xs

/-- Glob matching on names, as `fnmatch.fnmatch(name, pattern)` behaves on
patterns built from literals, `*` and `?`. -/
def fnmatchSimple (name pattern : String) : Bool :=
  globMatch pattern.data name.data

/-- A concrete subtree holding its own ignore file and a file that the ignore
file's pattern matches. -/
def sampleTreeA : FSNode :=
  FSNode.dir "sub" [FSNode.file ".gitignore" "*.log\n", FSNode.file "x.log" ""]

/-- The same subtree without the ignore file. -/
def sampleTreeB : FSNode :=
  FSNode.dir "sub" [FSNode.file "x.log" ""]

/-- Concrete siblings rendered before the subtree under scrutiny. -/
def sampleSiblings1 : List FSNode := [FSNode.file "keep.py" ""]

/-- Concrete siblings rendered after the subtree under scrutiny. -/
def sampleSiblings2 : List FSNode := [FSNode.file "z.py" ""]

end Coder

namespace Sidekick

/-! ## Session-store writes of the sidekick loop (`commands/sidekick.py`)

The loop state relevant to the session store is `completer.files` (a Python
set, initialised to the session's starting file set) and the persisted
`files` field of the session record.  `chat.files` after parsing one user
turn is the `FileSetChanged` payload of the spec's control surface; the
`Chat` parser itself lives outside the embedded core, so a session is driven
by the list of `chat.files` values observed after each turn.  Python sets are
represented by their element lists and compared with `setEq`. -/

/-- Equality of Python sets given as element lists: `a == b` on sets holds
when each contains the other's elements. -/
def setEq (a b : List String) : Bool :=
  a.all (fun x => b.contains x) && b.all (fun x => a.contains x)

/-- State carried across loop iterations: the completer's file set, the
persisted `files` field of the session record, and the trace of session-store
writes performed so far. -/
structure SidekickState where
  completerFiles : List String
  storeFiles : List String
  writes : List (List String)
deriving DecidableEq

/-- Embedding of the per-turn block `if completer.files != chat.files:` of
`sidekick`: when the parsed turn leaves `chat.files` different from
`completer.files`, the completer is updated and the session record is
re-read, its `files` field replaced, and written back; otherwise nothing is
touched.  Modelled from the spec: `Session.read`/`Session.write` (outside
`src/`) read and write the record as a whole, so the write is recorded as the
new `files` field value. -/
def sidekickFileStep (st : SidekickState) (chatFiles : List String) : SidekickState :=
  if setEq st.completerFiles chatFiles then st
  else
    { completerFiles := chatFiles
      storeFiles := chatFiles
      writes := st.writes ++ [chatFiles] }

/-- A run of the sidekick loop over the successive `chat.files` values of a
session's turns. -/
def sidekickFileSync (st : SidekickState) (turns : List (List String)) : SidekickState :=
  turns.foldl sidekickFileStep st

/-- Property claimed of the loop: a session-store write happens at a turn
only when that turn's file set differs from the set persisted in the store
before the turn. -/
def writesOnlyWhenStoreDiffers (st : SidekickState) : List (List String) → Bool
  | [] => true
  | c :: ts =>
    (setEq st.completerFiles c || !(setEq st.storeFiles c)) &&
      writesOnlyWhenStoreDiffers (sidekickFileStep st c) ts

end Sidekick

/-! ## Theorems -/

namespace Coder

/-- The selection predicate of `get_llm_model_name` tests exactly
`tier_fits`. -/
lemma selector_pred_iff (openrouter : Bool) (apiEngines : List String)
    (token_size : Nat) (p : String × Nat) :
    ((supported_engines openrouter apiEngines).contains p.1 &&
      decide (compensate token_size ≤ p.2)) = true ↔
      tier_fits openrouter apiEngines token_size p := by
  simp [tier_fits, List.contains, List.elem_iff]

/-- Over a capacity-sorted table, the first fitting element is also a
capacity-minimal fitting element. -/
lemma first_fit_minimal {α : Type} (cap : α → Nat) (F : α → Prop)
    (pre post : List α) (p : α)
    (hs : (pre ++ p :: post).Pairwise (fun a b => cap a ≤ cap b))
    (hpre : ∀ q ∈ pre, ¬ F q) :
    ∀ q ∈ pre ++ p :: post, F q → cap p ≤ cap q := by
  intro q hq hFq
  rcases List.mem_append.mp hq with h1 | h2
  · exact absurd hFq (hpre q h1)
  · rcases List.mem_cons.mp h2 with rfl | h3
    · exact Nat.le_refl _
    · exact (List.pairwise_cons.mp (List.pairwise_append.mp hs).2.1).1 q h3

/-- Claim C1, counterexample: in the direct-provider mode with all four table
engines available, a request of 1000 tokens (compensated 1050) is answered
with `gpt-4` (capacity 8192) although `gpt-3.5-turbo` (capacity 4096) is an
available tier of smaller capacity that also fits, so `get_llm_model_name`
is not first-fit in ascending `max_tokens` order. -/
theorem selector_not_ascending_first_fit_cex :
    get_llm_model_name false
      ["gpt-4", "gpt-4-32k", "gpt-3.5-turbo", "gpt-3.5-turbo-16k"] 1000 = some "gpt-4" ∧
    ("gpt-3.5-turbo", 4096) ∈ model_options false ∧
    tier_fits false ["gpt-4", "gpt-4-32k", "gpt-3.5-turbo", "gpt-3.5-turbo-16k"] 1000
      ("gpt-3.5-turbo", 4096) ∧
    ("gpt-4", 8192) ∈ model_options false ∧ 4096 < 8192 := by decide

/-- Claim C1, amended: `get_llm_model_name` is first-fit over the tier table
in its declaration order — the returned model is a fitting available tier and
every tier listed before it is unavailable or too small.  In the gateway
(OpenRouter) mode the declaration order is ascending in `max_tokens`, so
there the returned tier is additionally of minimal capacity among the
fitting available tiers; in the direct mode the table is not
capacity-sorted, so no such minimality holds (see the counterexample). -/
theorem selector_declaration_order_first_fit (openrouter : Bool)
    (apiEngines : List String) (token_size : Nat) (m : String)
    (h : get_llm_model_name openrouter apiEngines token_size = some m) :
    ∃ p pre post,
      model_options openrouter = pre ++ p :: post ∧ p.1 = m ∧
      tier_fits openrouter apiEngines token_size p ∧
      (∀ q ∈ pre, ¬ tier_fits openrouter apiEngines token_size q) ∧
      (openrouter = true →
        ∀ q ∈ model_options true, tier_fits true apiEngines token_size q →
          p.2 ≤ q.2) := by
  unfold get_llm_model_name get_llm_model_name_logged at h
  rcases hf : (model_options openrouter).find? (fun p =>
      (supported_engines openrouter apiEngines).contains p.1 &&
        decide (compensate token_size ≤ p.2)) with _ | p
  · rw [hf] at h
    exact Option.noConfusion h
  · rw [hf] at h
    have hm : p.1 = m := Option.some.inj h
    rcases List.find?_eq_some.mp hf with ⟨hp, pre, post, hdec, hpre⟩
    refine ⟨p, pre, post, hdec, hm, (selector_pred_iff _ _ _ _).mp hp, ?_, ?_⟩
    · intro q hq hFq
      have hpq := (selector_pred_iff openrouter apiEngines token_size q).mpr hFq
      have hneg := hpre q hq
      rw [hpq] at hneg
      exact absurd hneg (by decide)
    · rintro rfl q hq hFq
      have hs : (model_options true).Pairwise
          (fun a b : String × Nat => a.2 ≤ b.2) := by decide
      rw [hdec] at hs hq
      exact first_fit_minimal Prod.snd (tier_fits true apiEngines token_size)
        pre post p hs
        (fun r hr hFr => by
          have hpr := (selector_pred_iff true apiEngines token_size r).mpr hFr
          have hneg := hpre r hr
          rw [hpr] at hneg
          exact absurd hneg (by decide))
        q hq hFq

/-- Claim C1 witness: instantiating the first-fit theorem in the gateway mode
at 7800 required tokens. -/
theorem selector_declaration_order_first_fit_witness :
    ∃ p pre post,
      model_options true = pre ++ p :: post ∧ p.1 = "openai/gpt-4" ∧
      tier_fits true [] 7800 p ∧
      (∀ q ∈ pre, ¬ tier_fits true [] 7800 q) ∧
      (true = true →
        ∀ q ∈ model_options true, tier_fits true [] 7800 q → p.2 ≤ q.2) :=
  selector_declaration_order_first_fit true [] 7800 "openai/gpt-4" (by decide)

/-- Claim C2: `get_llm_model_name` returns `None` (never raising) exactly
when the compensated size `int(token_size * 1.05)` exceeds the capacity of
every tier that is both in the provider mode's table and in the availability
set, and in that case the emitted critical log carries the compensated
required size (plus, in direct mode, the OpenRouter hint). -/
theorem selector_unavailable_iff_no_tier_fits (openrouter : Bool)
    (apiEngines : List String) (token_size : Nat) :
    (get_llm_model_name openrouter apiEngines token_size = none ↔
      no_tier_fits openrouter apiEngines token_size) ∧
    (no_tier_fits openrouter apiEngines token_size →
      (get_llm_model_name_logged openrouter apiEngines token_size).2 =
        tooLargeMessage (compensate token_size) ::
          if openrouter then [] else [openRouterHint]) := by
  have hiff : (model_options openrouter).find? (fun p =>
      (supported_engines openrouter apiEngines).contains p.1 &&
        decide (compensate token_size ≤ p.2)) = none ↔
      no_tier_fits openrouter apiEngines token_size := by
    rw [List.find?_eq_none]
    constructor
    · intro hall p hp hmem
      by_contra hlt
      have hle : compensate token_size ≤ p.2 := Nat.le_of_not_lt hlt
      exact hall p hp
        ((selector_pred_iff openrouter apiEngines token_size p).mpr ⟨hmem, hle⟩)
    · intro hnf p hp hpred
      have hfit := (selector_pred_iff openrouter apiEngines token_size p).mp hpred
      exact absurd (hnf p hp hfit.1) (Nat.not_lt.mpr hfit.2)
  constructor
  · unfold get_llm_model_name get_llm_model_name_logged
    rcases hf : (model_options openrouter).find? (fun p =>
        (supported_engines openrouter apiEngines).contains p.1 &&
          decide (compensate token_size ≤ p.2)) with _ | psel
    · rw [hf]
      exact iff_of_true rfl (hiff.mp hf)
    · rw [hf]
      refine iff_of_false (fun hcon => Option.noConfusion hcon) (fun hnf => ?_)
      have hp0 := List.find?_some hf
      have hp := (selector_pred_iff openrouter apiEngines token_size psel).mp hp0
      exact absurd (hnf psel (List.mem_of_find?_eq_some hf) hp.1) (Nat.not_lt.mpr hp.2)
  · intro hnf
    unfold get_llm_model_name_logged
    rw [hiff.mpr hnf]

/-- Claim C2 witness: with only `gpt-4` available and 100000 required tokens,
no tier fits and the selector signals unavailability. -/
theorem selector_unavailable_iff_no_tier_fits_witness :
    get_llm_model_name false ["gpt-4"] 100000 = none :=
  (selector_unavailable_iff_no_tier_fits false ["gpt-4"] 100000).1.mpr (by decide)

/-- Claim C3: the compensation multiplier is 1.05, applied before the
capacity comparison: 7800 required tokens compensate to 8190 and select the
8192-capacity tier, 8000 compensate to 8400 and select the 32768-capacity
tier, in both provider modes (in direct mode with both `gpt-4` tiers
available). -/
theorem compensation_scenarios :
    compensate 7800 = 8190 ∧ compensate 8000 = 8400 ∧
    get_llm_model_name true [] 7800 = some "openai/gpt-4" ∧
    get_llm_model_name true [] 8000 = some "openai/gpt-4-32k" ∧
    get_llm_model_name false ["gpt-4", "gpt-4-32k"] 7800 = some "gpt-4" ∧
    get_llm_model_name false ["gpt-4", "gpt-4-32k"] 8000 = some "gpt-4-32k" := by
  decide

/-- A successful run of the status-line loop body produces one of the four
DiffEntry shapes: Added, Renamed, Deleted or Modified. -/
lemma processStatusLine_cases (b : Backend) (dt l : String)
    (res : List String × List Call) (h : processStatusLine b dt l = some res) :
    (∃ f, res = (["## New file added: " ++ f, b.readFile f], [Call.read f])) ∨
    (∃ o f, res = (["## File renamed: " ++ o ++ " -> " ++ f,
        b.exec (base_git_diff ++ [dt, "--", f])],
      [Call.exec (base_git_diff ++ [dt, "--", f])])) ∨
    (∃ f, res = (["## File deleted: " ++ f], [])) ∨
    (∃ f, res = (["## File changed: " ++ f, b.exec (base_git_diff ++ [dt, "--", f])],
      [Call.exec (base_git_diff ++ [dt, "--", f])])) := by
  simp only [processStatusLine] at h
  split at h
  · exact Option.noConfusion h
  · split at h
    · split at h
      · exact Option.noConfusion h
      · exact Or.inl ⟨_, (Option.some.inj h).symm⟩
    · split at h
      · split at h
        · exact Or.inr (Or.inl ⟨_, _, (Option.some.inj h).symm⟩)
        · exact Option.noConfusion h
      · split at h
        · split at h
          · exact Option.noConfusion h
          · exact Or.inr (Or.inr (Or.inl ⟨_, (Option.some.inj h).symm⟩))
        · split at h
          · exact Option.noConfusion h
          · exact Or.inr (Or.inr (Or.inr ⟨_, (Option.some.inj h).symm⟩))

/-- Every backend call recorded by the status-line loop body is either a file
read or a diff invocation `git diff -U10 <base> -- <path>` against the base
`dt` the loop was given. -/
lemma processStatusLine_calls (b : Backend) (dt l : String) (d : List String)
    (c : List Call) (h : processStatusLine b dt l = some (d, c)) :
    ∀ x ∈ c, (∃ f, x = Call.read f) ∨
      ∃ f, x = Call.exec (base_git_diff ++ [dt, "--", f]) := by
  intro x hx
  rcases processStatusLine_cases b dt l (d, c) h with
    ⟨f, hres⟩ | ⟨o, f, hres⟩ | ⟨f, hres⟩ | ⟨f, hres⟩ <;>
    rcases Prod.mk.injEq .. ▸ hres with ⟨hd, hc⟩ <;> subst hc
  · rcases List.mem_singleton.mp hx with rfl
    exact Or.inl ⟨f, rfl⟩
  · rcases List.mem_singleton.mp hx with rfl
    exact Or.inr ⟨f, rfl⟩
  · exact absurd hx (List.not_mem_nil x)
  · rcases List.mem_singleton.mp hx with rfl
    exact Or.inr ⟨f, rfl⟩

/-- Every backend call recorded by the whole status loop is a file read or a
diff invocation against the base the loop was given. -/
lemma processAll_calls (b : Backend) (dt : String) :
    ∀ (ls ds : List String) (cs : List Call), processAll b dt ls = some (ds, cs) →
      ∀ x ∈ cs, (∃ f, x = Call.read f) ∨
        ∃ f, x = Call.exec (base_git_diff ++ [dt, "--", f]) := by
  intro ls
  induction ls with
  | nil =>
    intro ds cs h x hx
    rcases Option.some.inj h with hids
    rcases Prod.mk.injEq .. ▸ hids.symm with ⟨_, hc⟩
    subst hc
    exact absurd hx (List.not_mem_nil x)
  | cons a as ih =>
    intro ds cs h x hx
    unfold processAll at h
    rcases ha : processStatusLine b dt a with _ | pr
    · rw [ha] at h; exact Option.noConfusion h
    · rcases has : processAll b dt as with _ | prs
      · rw [ha, has] at h; exact Option.noConfusion h
      · rw [ha, has] at h
        rcases Prod.mk.injEq .. ▸ (Option.some.inj h).symm with ⟨_, hc⟩
        subst hc
        rcases List.mem_append.mp hx with h1 | h2
        · exact processStatusLine_calls b dt a pr.1 pr.2 (by rw [ha]) x h1
        · exact ih prs.1 prs.2 (by rw [has]) x h2

/-- A successful status loop run carries every piece rendered for any of its
lines into the final entry list. -/
lemma processAll_mem_entry (b : Backend) (dt : String) :
    ∀ (ls ds : List String) (cs : List Call), processAll b dt ls = some (ds, cs) →
      ∀ l ∈ ls, ∃ d c, processStatusLine b dt l = some (d, c) ∧ ∀ x ∈ d, x ∈ ds := by
  intro ls
  induction ls with
  | nil =>
    intro ds cs _ l hl
    exact absurd hl (List.not_mem_nil l)
  | cons a as ih =>
    intro ds cs h l hl
    unfold processAll at h
    rcases ha : processStatusLine b dt a with _ | pr
    · rw [ha] at h; exact Option.noConfusion h
    · rcases has : processAll b dt as with _ | prs
      · rw [ha, has] at h; exact Option.noConfusion h
      · rw [ha, has] at h
        rcases Prod.mk.injEq .. ▸ (Option.some.inj h).symm with ⟨hd, _⟩
        subst hd
        rcases List.mem_cons.mp hl with rfl | h2
        · exact ⟨pr.1, pr.2, by rw [ha],
            fun x hx => List.mem_append.mpr (Or.inl hx)⟩
        · rcases ih prs.1 prs.2 (by rw [has]) l h2 with ⟨d, c, hline, hsub⟩
          exact ⟨d, c, hline,
            fun x hx => List.mem_append.mpr (Or.inr (hsub x hx))⟩

/-- Claim C4: without a commit argument, `git_diff_context` fixes the diff
base once per build — `--cached` exactly when at least one staged file
exists, `HEAD` otherwise — and every command the build issues is the staged
query, the name-status listing against that base, or a per-file diff against
that same single base. -/
theorem git_diff_single_base (b : Backend) (files : List String) (out : String)
    (tr : List Call) (h : git_diff_context b none files = some (out, tr)) :
    (diff_base b = "--cached" ↔ git_staged_files b ≠ []) ∧
    (diff_base b = "HEAD" ↔ git_staged_files b = []) ∧
    ∀ cmd, Call.exec cmd ∈ tr →
      cmd = stagedCmd ∨ cmd = nameStatusCmd (diff_base b) files ∨
      ∃ f, cmd = base_git_diff ++ [diff_base b, "--", f] := by
  refine ⟨?_, ?_, ?_⟩
  · unfold diff_base
    split
    · exact iff_of_true rfl (by assumption)
    · exact iff_of_false (by decide) (by simp_all)
  · unfold diff_base
    split
    · exact iff_of_false (by decide) (by simp_all)
    · exact iff_of_true rfl (by simp_all)
  · simp only [git_diff_context] at h
    rcases hpa : processAll b (diff_base b)
        (splitlines (b.exec (nameStatusCmd (diff_base b) files))) with _ | prs
    · rw [hpa] at h; exact Option.noConfusion h
    · rw [hpa] at h
      rcases Prod.mk.injEq .. ▸ (Option.some.inj h).symm with ⟨_, htr⟩
      subst htr
      intro cmd hmem
      rcases List.mem_cons.mp hmem with hc | hmem2
      · exact Or.inl (Call.exec.inj hc)
      · rcases List.mem_cons.mp hmem2 with hc | hmem3
        · exact Or.inr (Or.inl (Call.exec.inj hc))
        · rcases processAll_calls b (diff_base b) _ prs.1 prs.2 (by rw [hpa])
            (Call.exec cmd) hmem3 with ⟨f, hread⟩ | ⟨f, hexec⟩
          · exact absurd hread (fun hcon => Call.noConfusion hcon)
          · exact Or.inr (Or.inr ⟨f, Call.exec.inj hexec⟩)

/-- Claim C10: when the name-status listing is empty, `git_diff_context`
without a commit returns the empty context string (no failure), having run
only the staged query and the listing itself. -/
theorem empty_diff_empty_context (b : Backend) (files : List String)
    (h : splitlines (b.exec (nameStatusCmd (diff_base b) files)) = []) :
    git_diff_context b none files =
      some ("", [Call.exec stagedCmd, Call.exec (nameStatusCmd (diff_base b) files)]) := by
  simp only [git_diff_context, h, processAll, joinNL]

/-- Claim C4 witness: running the builder on the staged-modified-file backend
makes every issued command use the single base `--cached`. -/
theorem git_diff_single_base_witness :
    ((diff_base sampleBackend = "--cached" ↔ git_staged_files sampleBackend ≠ []) ∧
    (diff_base sampleBackend = "HEAD" ↔ git_staged_files sampleBackend = []) ∧
    ∀ cmd, Call.exec cmd ∈
        [Call.exec stagedCmd,
         Call.exec ["git", "diff", "--cached", "--name-status", "a.py"],
         Call.exec ["git", "diff", "-U10", "--cached", "--", "a.py"]] →
      cmd = stagedCmd ∨ cmd = nameStatusCmd (diff_base sampleBackend) ["a.py"] ∨
      ∃ f, cmd = base_git_diff ++ [diff_base sampleBackend, "--", f]) :=
  git_diff_single_base sampleBackend ["a.py"]
    "## File changed: a.py\n@@ -1,2 +1,2 @@ diff body"
    [Call.exec stagedCmd,
     Call.exec ["git", "diff", "--cached", "--name-status", "a.py"],
     Call.exec ["git", "diff", "-U10", "--cached", "--", "a.py"]]
    (by decide)

/-- Claim C10 witness: on the no-changes backend the builder returns the
empty context string. -/
theorem empty_diff_empty_context_witness :
    git_diff_context emptyBackend none [] =
      some ("", [Call.exec stagedCmd,
        Call.exec (nameStatusCmd (diff_base emptyBackend) [])]) :=
  empty_diff_empty_context emptyBackend [] (by decide)

/-- Claim C5: a status line whose code is `A` renders the new-file marker
followed by the file's entire current content verbatim, both of which land in
the built entry list, and processing that path performs a single file read
and no diff command at all. -/
theorem added_file_inlined (b : Backend) (dt l f p0 : String)
    (rest lines ds : List String) (tr : List Call)
    (hsplit : pySplit '\t' l = p0 :: f :: rest)
    (hA : p0.data.head? = some 'A')
    (hmem : l ∈ lines)
    (hall : processAll b dt lines = some (ds, tr)) :
    processStatusLine b dt l =
      some (["## New file added: " ++ f, b.readFile f], [Call.read f]) ∧
    ("## New file added: " ++ f) ∈ ds ∧ b.readFile f ∈ ds ∧
    ∀ cmd, Call.exec cmd ∉ ([Call.read f] : List Call) := by
  have hps : processStatusLine b dt l =
      some (["## New file added: " ++ f, b.readFile f], [Call.read f]) := by
    simp only [processStatusLine, hsplit]
    simp [hA]
  rcases processAll_mem_entry b dt lines ds tr hall l hmem with ⟨d, c, hline, hsub⟩
  rw [hps] at hline
  rcases Prod.mk.injEq .. ▸ (Option.some.inj hline) with ⟨hd, _⟩
  refine ⟨hps, hsub _ (hd ▸ List.mem_cons_self _ _), hsub _ (hd ▸ (by simp)), ?_⟩
  intro cmd hc
  rcases List.mem_singleton.mp hc with hcon
  exact Call.noConfusion hcon

/-- Claim C5 witness: the added-file line `A\tb.py` on a concrete backend. -/
theorem added_file_inlined_witness :
    (processStatusLine sampleBackend "HEAD" "A\tb.py" =
      some (["## New file added: " ++ "b.py", sampleBackend.readFile "b.py"],
        [Call.read "b.py"]) ∧
    ("## New file added: " ++ "b.py") ∈ ["## New file added: b.py", "print(1)\n"] ∧
    sampleBackend.readFile "b.py" ∈ ["## New file added: b.py", "print(1)\n"] ∧
    ∀ cmd, Call.exec cmd ∉ ([Call.read "b.py"] : List Call)) :=
  added_file_inlined sampleBackend "HEAD" "A\tb.py" "b.py" "A" [] ["A\tb.py"]
    ["## New file added: b.py", "print(1)\n"] [Call.read "b.py"]
    (by decide) (by decide) (by decide) (by decide)

/-- Claim C6: a status line whose code is `D` renders exactly the one-line
deletion marker, which lands in the built entry list, and processing that
path performs no backend call at all — in particular no read of the deleted
file's content. -/
theorem deleted_file_marker_only (b : Backend) (dt l f p0 : String)
    (rest lines ds : List String) (tr : List Call)
    (hsplit : pySplit '\t' l = p0 :: f :: rest)
    (hD : p0.data.head? = some 'D')
    (hmem : l ∈ lines)
    (hall : processAll b dt lines = some (ds, tr)) :
    processStatusLine b dt l = some (["## File deleted: " ++ f], []) ∧
    ("## File deleted: " ++ f) ∈ ds ∧
    ∀ g, Call.read g ∉ ([] : List Call) := by
  have hps : processStatusLine b dt l = some (["## File deleted: " ++ f], []) := by
    simp only [processStatusLine, hsplit]
    simp [hD]
  rcases processAll_mem_entry b dt lines ds tr hall l hmem with ⟨d, c, hline, hsub⟩
  rw [hps] at hline
  rcases Prod.mk.injEq .. ▸ (Option.some.inj hline) with ⟨hd, _⟩
  refine ⟨hps, hsub _ (hd ▸ List.mem_cons_self _ _), ?_⟩
  intro g hg
  exact absurd hg (List.not_mem_nil _)

/-- Claim C6 witness: the deleted-file line `D\tc.py` on a concrete
backend. -/
theorem deleted_file_marker_only_witness :
    (processStatusLine sampleBackend "HEAD" "D\tc.py" =
      some (["## File deleted: " ++ "c.py"], []) ∧
    ("## File deleted: " ++ "c.py") ∈ ["## File deleted: c.py"] ∧
    ∀ g, Call.read g ∉ ([] : List Call)) :=
  deleted_file_marker_only sampleBackend "HEAD" "D\tc.py" "c.py" "D" [] ["D\tc.py"]
    ["## File deleted: c.py"] []
    (by decide) (by decide) (by decide) (by decide)

/-- Claim C7: a status line whose code is none of `A`, `R`, `D` (the
Modified default) renders a changed-file header and the output of the diff
command `git diff -U10 <base> -- <path>`; the request therefore asks the
versioning backend for 10 lines of context around every hunk, and the diff
output lands in the built entry list. -/
theorem modified_file_unified_diff_u10 (b : Backend) (dt l f p0 : String)
    (code : Char) (rest lines ds : List String) (tr : List Call)
    (hsplit : pySplit '\t' l = p0 :: f :: rest)
    (hcode : p0.data.head? = some code)
    (hA : code ≠ 'A') (hR : code ≠ 'R') (hD : code ≠ 'D')
    (hmem : l ∈ lines)
    (hall : processAll b dt lines = some (ds, tr)) :
    processStatusLine b dt l =
      some (["## File changed: " ++ f, b.exec (base_git_diff ++ [dt, "--", f])],
        [Call.exec (base_git_diff ++ [dt, "--", f])]) ∧
    "-U10" ∈ base_git_diff ++ [dt, "--", f] ∧
    ("## File changed: " ++ f) ∈ ds ∧
    b.exec (base_git_diff ++ [dt, "--", f]) ∈ ds := by
  have hps : processStatusLine b dt l =
      some (["## File changed: " ++ f, b.exec (base_git_diff ++ [dt, "--", f])],
        [Call.exec (base_git_diff ++ [dt, "--", f])]) := by
    simp only [processStatusLine, hsplit]
    simp [hcode, hA, hR, hD]
  rcases processAll_mem_entry b dt lines ds tr hall l hmem with ⟨d, c, hline, hsub⟩
  rw [hps] at hline
  rcases Prod.mk.injEq .. ▸ (Option.some.inj hline) with ⟨hd, _⟩
  refine ⟨hps, by simp [base_git_diff], hsub _ (hd ▸ List.mem_cons_self _ _),
    hsub _ (hd ▸ (by simp))⟩

/-- Claim C7 witness: the modified-file line `M\ta.py` on a concrete
backend. -/
theorem modified_file_unified_diff_u10_witness :
    (processStatusLine sampleBackend "HEAD" "M\ta.py" =
      some (["## File changed: " ++ "a.py",
          sampleBackend.exec (base_git_diff ++ ["HEAD", "--", "a.py"])],
        [Call.exec (base_git_diff ++ ["HEAD", "--", "a.py"])]) ∧
    "-U10" ∈ base_git_diff ++ ["HEAD", "--", "a.py"] ∧
    ("## File changed: " ++ "a.py") ∈
      ["## File changed: a.py", "@@ -1,2 +1,2 @@ diff body"] ∧
    sampleBackend.exec (base_git_diff ++ ["HEAD", "--", "a.py"]) ∈
      ["## File changed: a.py", "@@ -1,2 +1,2 @@ diff body"]) :=
  modified_file_unified_diff_u10 sampleBackend "HEAD" "M\ta.py" "a.py" "M" 'M' []
    ["M\ta.py"] ["## File changed: a.py", "@@ -1,2 +1,2 @@ diff body"]
    [Call.exec (base_git_diff ++ ["HEAD", "--", "a.py"])]
    (by decide) (by decide) (by decide) (by decide) (by decide) (by decide) (by decide)

/-- Rendering a concatenation of sibling lists concatenates their renderings;
every sibling receives the same inherited pattern list. -/
lemma renderChildren_append (m : String → String → Bool) (ug : Bool)
    (xs ys : List FSNode) (P : List String) (i : Nat) :
    renderChildren m ug (xs ++ ys) P i =
      renderChildren m ug xs P i ++ renderChildren m ug ys P i := by
  induction xs with
  | nil =>
    simp only [List.nil_append, renderChildren]
    exact (String.empty_append _).symm
  | cons c cs ih =>
    simp only [List.cons_append, renderChildren, List.append_eq, ih, String.append_assoc]

/-- A directory whose extended pattern set does not match its own name
renders its header line and then its children, each child receiving the
extended pattern set. -/
lemma generate_dir_not_ignored (m : String → String → Bool) (ug : Bool)
    (n : String) (ch : List FSNode) (P : List String) (i : Nat)
    (h : (dirPatterns ug P (FSNode.dir n ch)).any (fun pattern => m n pattern) = false) :
    generate_directory_structure m ug (FSNode.dir n ch) P i =
      indentStr i ++ "- [Directory] " ++ n ++ "\n" ++
        renderChildren m ug ch (dirPatterns ug P (FSNode.dir n ch)) (i + 1) := by
  simp only [dirPatterns] at h
  simp only [generate_directory_structure, dirPatterns]
  rw [h]
  simp

/-- Claim C8: ignore patterns are scoped to the subtree that read them.  A
directory renders as its header followed by its children in order, every
child receiving exactly the inherited patterns extended by the directory's
own level ignore file; consequently, replacing one child subtree `a` (which
may contain arbitrarily many nested ignore files) by another `a'` leaves the
renderings of the earlier siblings, the later siblings and the header
unchanged, and leaves the pattern set handed to every sibling unchanged — no
sideways and no upward leakage, for every matcher, snapshot and initial
pattern set. -/
theorem ignore_patterns_scoped (m : String → String → Bool) (ug : Bool)
    (P : List String) (n : String) (l1 l2 : List FSNode) (a a' : FSNode) (i : Nat)
    (hfind : findGitignore (l1 ++ a :: l2) = findGitignore (l1 ++ a' :: l2))
    (hnp : (dirPatterns ug P (FSNode.dir n (l1 ++ a :: l2))).any
      (fun pattern => m n pattern) = false) :
    generate_directory_structure m ug (FSNode.dir n (l1 ++ a :: l2)) P i =
      indentStr i ++ "- [Directory] " ++ n ++ "\n" ++
        (renderChildren m ug l1 (dirPatterns ug P (FSNode.dir n (l1 ++ a :: l2))) (i + 1) ++
          (generate_directory_structure m ug a
              (dirPatterns ug P (FSNode.dir n (l1 ++ a :: l2))) (i + 1) ++
            renderChildren m ug l2
              (dirPatterns ug P (FSNode.dir n (l1 ++ a :: l2))) (i + 1))) ∧
    generate_directory_structure m ug (FSNode.dir n (l1 ++ a' :: l2)) P i =
      indentStr i ++ "- [Directory] " ++ n ++ "\n" ++
        (renderChildren m ug l1 (dirPatterns ug P (FSNode.dir n (l1 ++ a :: l2))) (i + 1) ++
          (generate_directory_structure m ug a'
              (dirPatterns ug P (FSNode.dir n (l1 ++ a :: l2))) (i + 1) ++
            renderChildren m ug l2
              (dirPatterns ug P (FSNode.dir n (l1 ++ a :: l2))) (i + 1))) := by
  have hsplit : ∀ (x : FSNode) (Q : List String),
      renderChildren m ug (l1 ++ x :: l2) Q (i + 1) =
        renderChildren m ug l1 Q (i + 1) ++
          (generate_directory_structure m ug x Q (i + 1) ++
            renderChildren m ug l2 Q (i + 1)) := by
    intro x Q
    rw [renderChildren_append]
    simp only [renderChildren]
  have hgia : gitignoreOf (FSNode.dir n (l1 ++ a' :: l2)) =
      gitignoreOf (FSNode.dir n (l1 ++ a :: l2)) := by
    simp only [gitignoreOf, hfind]
  have hpats : dirPatterns ug P (FSNode.dir n (l1 ++ a' :: l2)) =
      dirPatterns ug P (FSNode.dir n (l1 ++ a :: l2)) := by
    simp only [dirPatterns, hgia]
  constructor
  · rw [generate_dir_not_ignored m ug n (l1 ++ a :: l2) P i hnp, hsplit]
  · rw [generate_dir_not_ignored m ug n (l1 ++ a' :: l2) P i (by rw [hpats]; exact hnp),
      hpats, hsplit]

/-- Claim C8 witness: replacing a subtree that carries its own ignore file by
one without it, between two concrete siblings. -/
theorem ignore_patterns_scoped_witness :
    generate_directory_structure fnmatchSimple true
        (FSNode.dir "root" (sampleSiblings1 ++ sampleTreeA :: sampleSiblings2)) [] 0 =
      indentStr 0 ++ "- [Directory] " ++ "root" ++ "\n" ++
        (renderChildren fnmatchSimple true sampleSiblings1
            (dirPatterns true []
              (FSNode.dir "root" (sampleSiblings1 ++ sampleTreeA :: sampleSiblings2))) (0 + 1) ++
          (generate_directory_structure fnmatchSimple true sampleTreeA
              (dirPatterns true []
                (FSNode.dir "root" (sampleSiblings1 ++ sampleTreeA :: sampleSiblings2))) (0 + 1) ++
            renderChildren fnmatchSimple true sampleSiblings2
              (dirPatterns true []
                (FSNode.dir "root" (sampleSiblings1 ++ sampleTreeA :: sampleSiblings2))) (0 + 1))) ∧
    generate_directory_structure fnmatchSimple true
        (FSNode.dir "root" (sampleSiblings1 ++ sampleTreeB :: sampleSiblings2)) [] 0 =
      indentStr 0 ++ "- [Directory] " ++ "root" ++ "\n" ++
        (renderChildren fnmatchSimple true sampleSiblings1
            (dirPatterns true []
              (FSNode.dir "root" (sampleSiblings1 ++ sampleTreeA :: sampleSiblings2))) (0 + 1) ++
          (generate_directory_structure fnmatchSimple true sampleTreeB
              (dirPatterns true []
                (FSNode.dir "root" (sampleSiblings1 ++ sampleTreeA :: sampleSiblings2))) (0 + 1) ++
            renderChildren fnmatchSimple true sampleSiblings2
              (dirPatterns true []
                (FSNode.dir "root" (sampleSiblings1 ++ sampleTreeA :: sampleSiblings2))) (0 + 1))) :=
  ignore_patterns_scoped fnmatchSimple true [] "root"
    sampleSiblings1 sampleSiblings2 sampleTreeA sampleTreeB 0 (by decide) (by decide)

end Coder

namespace Sidekick

/-- Claim C9, counterexample: start a session with command-line files
`{"y"}` while the session store still holds `{"x"}` from an earlier run; a
control command that sets the active file set back to `{"x"}` triggers a
store write even though the active set equals the previously persisted set,
so the store is not written only on difference from the persisted set. -/
theorem session_write_not_vs_persisted_cex :
    writesOnlyWhenStoreDiffers ⟨["y"], ["x"], []⟩ [["x"]] = false ∧
    (sidekickFileSync ⟨["y"], ["x"], []⟩ [["x"]]).writes = [["x"]] ∧
    (SidekickState.mk ["y"] ["x"] []).storeFiles = ["x"] := by decide

/-- Claim C9, amended: a turn writes the session store only when its file
set differs, as a Python set, from the set the completer tracks (the
session's initial file set, thereafter the last written set) — which
coincides with the previously persisted set when the initial files were
restored from the store, but not necessarily otherwise.  Two consecutive
control turns landing on the same final set (up to set equality) write the
store exactly once, persisting that final set. -/
theorem session_write_dedup (st : SidekickState) (s t : List String)
    (hchange : setEq st.completerFiles s = false)
    (hsame : setEq s t = true) :
    sidekickFileStep (sidekickFileStep st s) t = sidekickFileStep st s ∧
    (sidekickFileSync st [s, t]).writes = st.writes ++ [s] ∧
    (sidekickFileSync st [s, t]).storeFiles = s := by
  have hstep : sidekickFileStep st s =
      { completerFiles := s, storeFiles := s, writes := st.writes ++ [s] } := by
    simp [sidekickFileStep, hchange]
  have hstep2 : sidekickFileStep (sidekickFileStep st s) t = sidekickFileStep st s := by
    rw [hstep]
    simp [sidekickFileStep, hsame]
  refine ⟨hstep2, ?_, ?_⟩
  · show (sidekickFileStep (sidekickFileStep st s) t).writes = st.writes ++ [s]
    rw [hstep2, hstep]
  · show (sidekickFileStep (sidekickFileStep st s) t).storeFiles = s
    rw [hstep2, hstep]

/-- Claim C9 witness: two consecutive commands reaching the set `{a, b}`
through different orderings write the store once. -/
theorem session_write_dedup_witness :
    sidekickFileStep (sidekickFileStep ⟨["a"], ["a"], []⟩ ["a", "b"]) ["b", "a"] =
      sidekickFileStep ⟨["a"], ["a"], []⟩ ["a", "b"] ∧
    (sidekickFileSync ⟨["a"], ["a"], []⟩ [["a", "b"], ["b", "a"]]).writes =
      [] ++ [["a", "b"]] ∧
    (sidekickFileSync ⟨["a"], ["a"], []⟩ [["a", "b"], ["b", "a"]]).storeFiles =
      ["a", "b"] :=
  session_write_dedup ⟨["a"], ["a"], []⟩ ["a", "b"] ["b", "a"] (by decide) (by decide)

end Sidekick
